import Mathlib

/-!
# CachingFileSystem (package main, caching_fs.go)

A shallow embedding of the caching decorator over `boshsys.FileSystem`.

* A Go `string` is an immutable byte sequence (`GoString`), a `[]byte` is a list of bytes
  (`Bytes`); a nil slice and an empty slice are both the empty list.
* A Go `error` is `Option ErrorValue`, `none` being `nil`.
* A Go `map[string]V` is a function `GoString → Option V`; `none` is an absent key.
* The underlying `boshsys.FileSystem` is an arbitrary state machine: a record of methods
  over a state type `σ`, each method taking the state and returning its results together
  with the next state.  Types declared outside this repository (`os.FileMode`,
  `boshsys.File`, ...) are parameters, bundled in `SysTypes`.
* The two mutexes are not modelled: every method runs to completion before the next starts.
* Both maps are non-nil, as in every state reachable from `NewCachingFileSystem`.
* A `boshlog.Logger` is represented by the list of calls made on it.
* A slice is a value: a caller writing into a returned `[]byte` is outside the model, and so
  is a `filepath.WalkFunc` that calls back into the decorator.
-/

set_option autoImplicit false

namespace Main

/-! ## Go values -/

/-- One byte. -/
abbrev Byte := Fin 256

/-- Go `[]byte`. -/
abbrev Bytes := List Byte

/-- Go `string`: an immutable sequence of bytes, compared bytewise. -/
structure GoString where
  bytes : List Byte
  deriving DecidableEq, Repr

/-- Go conversion `string(b)` of a byte slice: the same bytes. -/
def GoString.ofBytes (b : Bytes) : GoString := ⟨b⟩

/-- The empty string literal. -/
def GoString.empty : GoString := ⟨[]⟩

/-- A non-nil Go `error` value, carrying the text its `Error()` method returns. -/
structure ErrorValue where
  text : String
  deriving DecidableEq, Repr

/-- Go `error`; `none` is `nil`. -/
abbrev error := Option ErrorValue

/-- Go `map[string]V`. -/
abbrev GoMap (V : Type) := GoString → Option V

/-- The map literal `map[string]V{}`. -/
def GoMap.empty {V : Type} : GoMap V := fun _ => none

/-- The assignment `m[k] = v`. -/
def GoMap.set {V : Type} (m : GoMap V) (k : GoString) (v : V) : GoMap V :=
  fun k2 => if k2 = k then some v else m k2

/-! ## The `boshsys.FileSystem` interface -/

/-- Types of the `os`, `path/filepath` and `boshsys` packages that occur in the interface. -/
structure SysTypes where
  FileMode : Type
  File : Type
  FileInfo : Type
  ReadOpts : Type
  StatOpts : Type
  ConvergeFileContentsOpts : Type
  WalkFunc : Type

/-- The method set of `boshsys.FileSystem` as implemented by an object with state `σ`. -/
structure FileSystem (T : SysTypes) (σ : Type) where
  ChangeTempRoot : GoString → σ → error × σ
  HomeDir : GoString → σ → (GoString × error) × σ
  MkdirAll : GoString → T.FileMode → σ → error × σ
  RemoveAll : GoString → σ → error × σ
  Chown : GoString → GoString → σ → error × σ
  Chmod : GoString → T.FileMode → σ → error × σ
  OpenFile : GoString → Int → T.FileMode → σ → (T.File × error) × σ
  WriteFileString : GoString → GoString → σ → error × σ
  WriteFile : GoString → Bytes → σ → error × σ
  ExpandPath : GoString → σ → (GoString × error) × σ
  ConvergeFileContents :
    GoString → Bytes → List T.ConvergeFileContentsOpts → σ → (Bool × error) × σ
  ReadFileString : GoString → σ → (GoString × error) × σ
  ReadFile : GoString → σ → (Bytes × error) × σ
  ReadFileWithOpts : GoString → T.ReadOpts → σ → (Bytes × error) × σ
  FileExists : GoString → σ → Bool × σ
  Rename : GoString → GoString → σ → error × σ
  Symlink : GoString → GoString → σ → error × σ
  ReadAndFollowLink : GoString → σ → (GoString × error) × σ
  Readlink : GoString → σ → (GoString × error) × σ
  CopyFile : GoString → GoString → σ → error × σ
  CopyDir : GoString → GoString → σ → error × σ
  TempFile : GoString → σ → (T.File × error) × σ
  TempDir : GoString → σ → (GoString × error) × σ
  Lstat : GoString → σ → (T.FileInfo × error) × σ
  Stat : GoString → σ → (T.FileInfo × error) × σ
  StatWithOpts : GoString → T.StatOpts → σ → (T.FileInfo × error) × σ
  RecursiveGlob : GoString → σ → (List GoString × error) × σ
  WriteFileQuietly : GoString → Bytes → σ → error × σ
  Glob : GoString → σ → (List GoString × error) × σ
  Walk : GoString → T.WalkFunc → σ → error × σ

/-- A method of `boshsys.FileSystem` together with its arguments. -/
inductive Request (T : SysTypes) : Type
  | ChangeTempRoot (path : GoString)
  | HomeDir (username : GoString)
  | MkdirAll (path : GoString) (perm : T.FileMode)
  | RemoveAll (fileOrDir : GoString)
  | Chown (path username : GoString)
  | Chmod (path : GoString) (perm : T.FileMode)
  | OpenFile (path : GoString) (flag : Int) (perm : T.FileMode)
  | WriteFileString (path content : GoString)
  | WriteFile (path : GoString) (content : Bytes)
  | ExpandPath (path : GoString)
  | ConvergeFileContents (path : GoString) (content : Bytes)
      (opts : List T.ConvergeFileContentsOpts)
  | ReadFileString (path : GoString)
  | ReadFile (path : GoString)
  | ReadFileWithOpts (path : GoString) (opts : T.ReadOpts)
  | FileExists (path : GoString)
  | Rename (oldPath newPath : GoString)
  | Symlink (oldPath newPath : GoString)
  | ReadAndFollowLink (symlinkPath : GoString)
  | Readlink (symlinkPath : GoString)
  | CopyFile (srcPath dstPath : GoString)
  | CopyDir (srcPath dstPath : GoString)
  | TempFile (pfx : GoString)
  | TempDir (pfx : GoString)
  | Lstat (path : GoString)
  | Stat (path : GoString)
  | StatWithOpts (path : GoString) (opts : T.StatOpts)
  | RecursiveGlob (pattern : GoString)
  | WriteFileQuietly (path : GoString) (content : Bytes)
  | Glob (pattern : GoString)
  | Walk (root : GoString) (walkFunc : T.WalkFunc)

/-- The values the method of a request returns. -/
@[reducible] def Response (T : SysTypes) : Request T → Type
  | .ChangeTempRoot _ => error
  | .HomeDir _ => GoString × error
  | .MkdirAll _ _ => error
  | .RemoveAll _ => error
  | .Chown _ _ => error
  | .Chmod _ _ => error
  | .OpenFile _ _ _ => T.File × error
  | .WriteFileString _ _ => error
  | .WriteFile _ _ => error
  | .ExpandPath _ => GoString × error
  | .ConvergeFileContents _ _ _ => Bool × error
  | .ReadFileString _ => GoString × error
  | .ReadFile _ => Bytes × error
  | .ReadFileWithOpts _ _ => Bytes × error
  | .FileExists _ => Bool
  | .Rename _ _ => error
  | .Symlink _ _ => error
  | .ReadAndFollowLink _ => GoString × error
  | .Readlink _ => GoString × error
  | .CopyFile _ _ => error
  | .CopyDir _ _ => error
  | .TempFile _ => T.File × error
  | .TempDir _ => GoString × error
  | .Lstat _ => T.FileInfo × error
  | .Stat _ => T.FileInfo × error
  | .StatWithOpts _ _ => T.FileInfo × error
  | .RecursiveGlob _ => List GoString × error
  | .WriteFileQuietly _ _ => error
  | .Glob _ => List GoString × error
  | .Walk _ _ => error

/-- Invoke the method a request names, with the request's arguments. -/
def FileSystem.call {T : SysTypes} {σ : Type} (fs : FileSystem T σ) :
    (req : Request T) → σ → Response T req × σ
  | .ChangeTempRoot path => fs.ChangeTempRoot path
  | .HomeDir username => fs.HomeDir username
  | .MkdirAll path perm => fs.MkdirAll path perm
  | .RemoveAll fileOrDir => fs.RemoveAll fileOrDir
  | .Chown path username => fs.Chown path username
  | .Chmod path perm => fs.Chmod path perm
  | .OpenFile path flag perm => fs.OpenFile path flag perm
  | .WriteFileString path content => fs.WriteFileString path content
  | .WriteFile path content => fs.WriteFile path content
  | .ExpandPath path => fs.ExpandPath path
  | .ConvergeFileContents path content opts => fs.ConvergeFileContents path content opts
  | .ReadFileString path => fs.ReadFileString path
  | .ReadFile path => fs.ReadFile path
  | .ReadFileWithOpts path opts => fs.ReadFileWithOpts path opts
  | .FileExists path => fs.FileExists path
  | .Rename oldPath newPath => fs.Rename oldPath newPath
  | .Symlink oldPath newPath => fs.Symlink oldPath newPath
  | .ReadAndFollowLink symlinkPath => fs.ReadAndFollowLink symlinkPath
  | .Readlink symlinkPath => fs.Readlink symlinkPath
  | .CopyFile srcPath dstPath => fs.CopyFile srcPath dstPath
  | .CopyDir srcPath dstPath => fs.CopyDir srcPath dstPath
  | .TempFile pfx => fs.TempFile pfx
  | .TempDir pfx => fs.TempDir pfx
  | .Lstat path => fs.Lstat path
  | .Stat path => fs.Stat path
  | .StatWithOpts path opts => fs.StatWithOpts path opts
  | .RecursiveGlob pattern => fs.RecursiveGlob pattern
  | .WriteFileQuietly path content => fs.WriteFileQuietly path content
  | .Glob pattern => fs.Glob pattern
  | .Walk root walkFunc => fs.Walk root walkFunc

/-! ## The logger -/

/-- Levels of `boshlog.Logger` used by the decorator. -/
inductive LogLevel
  | Info
  | Debug
  deriving DecidableEq, Repr

/-- One call of `logger.Info` or `logger.Debug`: tag, format string and arguments. -/
structure LogCall where
  level : LogLevel
  tag : String
  format : String
  args : List GoString
  deriving DecidableEq, Repr

/-- A `boshlog.Logger`, represented by the calls made on it so far. -/
abbrev Logger := List LogCall

/-- Method `logger.Info(tag, msg, args...)`. -/
def Logger.Info (l : Logger) (tag msg : String) (args : List GoString) : Logger :=
  l ++ [⟨.Info, tag, msg, args⟩]

/-- Method `logger.Debug(tag, msg, args...)`. -/
def Logger.Debug (l : Logger) (tag msg : String) (args : List GoString) : Logger :=
  l ++ [⟨.Debug, tag, msg, args⟩]

/-! ## The decorator -/

/-- The struct `CachingFileSystem`.  The interface value `fs` is the pair of its method
table `fs` and the current state `fsState` of the object behind it. -/
structure CachingFileSystem (T : SysTypes) (σ : Type) where
  fs : FileSystem T σ
  fsState : σ
  readCache : GoMap Bytes
  globCache : GoMap (List GoString)
  logTag : String
  logger : Logger

/-- Constructor `NewCachingFileSystem(fs, logger)`. -/
def NewCachingFileSystem {T : SysTypes} {σ : Type} (fs : FileSystem T σ) (fsState : σ)
    (logger : Logger) : CachingFileSystem T σ :=
  { fs := fs
    fsState := fsState
    readCache := GoMap.empty
    globCache := GoMap.empty
    logTag := "CachingFileSystem"
    logger := logger }

namespace CachingFileSystem

variable {T : SysTypes} {σ : Type}

/-- Method `DropCache()`. -/
def DropCache (f : CachingFileSystem T σ) : CachingFileSystem T σ :=
  let f := { f with logger := f.logger.Info f.logTag "Reloading data" [] }
  let f := { f with readCache := GoMap.empty }
  { f with globCache := GoMap.empty }

/-- The statement `return f.fs.M(args)`: invoke a method of the underlying filesystem on its
current state, keep the state it leaves, and return what it returned. -/
def forward {ρ : Type} (f : CachingFileSystem T σ) (m : σ → ρ × σ) :
    ρ × CachingFileSystem T σ :=
  let r := m f.fsState
  (r.1, { f with fsState := r.2 })

/-- Method `ChangeTempRoot`. -/
def ChangeTempRoot (f : CachingFileSystem T σ) (path : GoString) : error × CachingFileSystem T σ :=
  f.forward (f.fs.ChangeTempRoot path)

/-- Method `HomeDir`. -/
def HomeDir (f : CachingFileSystem T σ) (username : GoString) :
    (GoString × error) × CachingFileSystem T σ :=
  f.forward (f.fs.HomeDir username)

/-- Method `MkdirAll`. -/
def MkdirAll (f : CachingFileSystem T σ) (path : GoString) (perm : T.FileMode) :
    error × CachingFileSystem T σ :=
  f.forward (f.fs.MkdirAll path perm)

/-- Method `RemoveAll`. -/
def RemoveAll (f : CachingFileSystem T σ) (fileOrDir : GoString) : error × CachingFileSystem T σ :=
  f.forward (f.fs.RemoveAll fileOrDir)

/-- Method `Chown`. -/
def Chown (f : CachingFileSystem T σ) (path : GoString) (username : GoString) :
    error × CachingFileSystem T σ :=
  f.forward (f.fs.Chown path username)

/-- Method `Chmod`. -/
def Chmod (f : CachingFileSystem T σ) (path : GoString) (perm : T.FileMode) :
    error × CachingFileSystem T σ :=
  f.forward (f.fs.Chmod path perm)

/-- Method `OpenFile`. -/
def OpenFile (f : CachingFileSystem T σ) (path : GoString) (flag : Int) (perm : T.FileMode) :
    (T.File × error) × CachingFileSystem T σ :=
  f.forward (f.fs.OpenFile path flag perm)

/-- Method `WriteFileString`. -/
def WriteFileString (f : CachingFileSystem T σ) (path : GoString) (content : GoString) :
    error × CachingFileSystem T σ :=
  f.forward (f.fs.WriteFileString path content)

/-- Method `WriteFile`. -/
def WriteFile (f : CachingFileSystem T σ) (path : GoString) (content : Bytes) :
    error × CachingFileSystem T σ :=
  f.forward (f.fs.WriteFile path content)

/-- Method `ExpandPath`. -/
def ExpandPath (f : CachingFileSystem T σ) (path : GoString) :
    (GoString × error) × CachingFileSystem T σ :=
  f.forward (f.fs.ExpandPath path)

/-- Method `ConvergeFileContents`. -/
def ConvergeFileContents (f : CachingFileSystem T σ) (path : GoString) (content : Bytes)
    (opts : List T.ConvergeFileContentsOpts) : (Bool × error) × CachingFileSystem T σ :=
  f.forward (f.fs.ConvergeFileContents path content opts)

/-- Method `ReadFile(path)`. -/
def ReadFile (f : CachingFileSystem T σ) (path : GoString) :
    (Bytes × error) × CachingFileSystem T σ :=
  match f.readCache path with
  | some content =>
    let f := { f with logger := f.logger.Debug f.logTag "hit: read[%s]" [path] }
    ((content, none), f)
  | none =>
    let f := { f with logger := f.logger.Debug f.logTag "miss: read[%s]" [path] }
    let r := f.fs.ReadFile path f.fsState
    let content := r.1.1
    let err := r.1.2
    let f := { f with fsState := r.2 }
    match err with
    | none => ((content, err), { f with readCache := f.readCache.set path content })
    | some _ => ((content, err), f)

/-- Method `ReadFileString(path)`. -/
def ReadFileString (f : CachingFileSystem T σ) (path : GoString) :
    (GoString × error) × CachingFileSystem T σ :=
  let r := f.ReadFile path
  let bytes := r.1.1
  let err := r.1.2
  let f := r.2
  match err with
  | some e => ((GoString.empty, some e), f)
  | none => ((GoString.ofBytes bytes, none), f)

/-- Method `ReadFileWithOpts`. -/
def ReadFileWithOpts (f : CachingFileSystem T σ) (path : GoString) (opts : T.ReadOpts) :
    (Bytes × error) × CachingFileSystem T σ :=
  f.forward (f.fs.ReadFileWithOpts path opts)

/-- Method `FileExists`. -/
def FileExists (f : CachingFileSystem T σ) (path : GoString) : Bool × CachingFileSystem T σ :=
  f.forward (f.fs.FileExists path)

/-- Method `Rename`. -/
def Rename (f : CachingFileSystem T σ) (oldPath : GoString) (newPath : GoString) :
    error × CachingFileSystem T σ :=
  f.forward (f.fs.Rename oldPath newPath)

/-- Method `Symlink`. -/
def Symlink (f : CachingFileSystem T σ) (oldPath : GoString) (newPath : GoString) :
    error × CachingFileSystem T σ :=
  f.forward (f.fs.Symlink oldPath newPath)

/-- Method `ReadAndFollowLink`. -/
def ReadAndFollowLink (f : CachingFileSystem T σ) (symlinkPath : GoString) :
    (GoString × error) × CachingFileSystem T σ :=
  f.forward (f.fs.ReadAndFollowLink symlinkPath)

/-- Method `Readlink`. -/
def Readlink (f : CachingFileSystem T σ) (symlinkPath : GoString) :
    (GoString × error) × CachingFileSystem T σ :=
  f.forward (f.fs.Readlink symlinkPath)

/-- Method `CopyFile`. -/
def CopyFile (f : CachingFileSystem T σ) (srcPath : GoString) (dstPath : GoString) :
    error × CachingFileSystem T σ :=
  f.forward (f.fs.CopyFile srcPath dstPath)

/-- Method `CopyDir`. -/
def CopyDir (f : CachingFileSystem T σ) (srcPath : GoString) (dstPath : GoString) :
    error × CachingFileSystem T σ :=
  f.forward (f.fs.CopyDir srcPath dstPath)

/-- Method `TempFile`. -/
def TempFile (f : CachingFileSystem T σ) (pfx : GoString) :
    (T.File × error) × CachingFileSystem T σ :=
  f.forward (f.fs.TempFile pfx)

/-- Method `TempDir`. -/
def TempDir (f : CachingFileSystem T σ) (pfx : GoString) :
    (GoString × error) × CachingFileSystem T σ :=
  f.forward (f.fs.TempDir pfx)

/-- Method `Lstat`. -/
def Lstat (f : CachingFileSystem T σ) (path : GoString) :
    (T.FileInfo × error) × CachingFileSystem T σ :=
  f.forward (f.fs.Lstat path)

/-- Method `Stat`. -/
def Stat (f : CachingFileSystem T σ) (path : GoString) :
    (T.FileInfo × error) × CachingFileSystem T σ :=
  f.forward (f.fs.Stat path)

/-- Method `StatWithOpts`. -/
def StatWithOpts (f : CachingFileSystem T σ) (path : GoString) (opts : T.StatOpts) :
    (T.FileInfo × error) × CachingFileSystem T σ :=
  f.forward (f.fs.StatWithOpts path opts)

/-- Method `RecursiveGlob`. -/
def RecursiveGlob (f : CachingFileSystem T σ) (pattern : GoString) :
    (List GoString × error) × CachingFileSystem T σ :=
  f.forward (f.fs.RecursiveGlob pattern)

/-- Method `WriteFileQuietly`. -/
def WriteFileQuietly (f : CachingFileSystem T σ) (path : GoString) (content : Bytes) :
    error × CachingFileSystem T σ :=
  f.forward (f.fs.WriteFileQuietly path content)

/-- Method `Glob(pattern)`. -/
def Glob (f : CachingFileSystem T σ) (pattern : GoString) :
    (List GoString × error) × CachingFileSystem T σ :=
  match f.globCache pattern with
  | some matched =>
    let f := { f with logger := f.logger.Debug f.logTag "hit: glob[%s]" [pattern] }
    ((matched, none), f)
  | none =>
    let f := { f with logger := f.logger.Debug f.logTag "miss: glob[%s]" [pattern] }
    let r := f.fs.Glob pattern f.fsState
    let matched := r.1.1
    let err := r.1.2
    let f := { f with fsState := r.2 }
    match err with
    | none => ((matched, err), { f with globCache := f.globCache.set pattern matched })
    | some _ => ((matched, err), f)

/-- Method `Walk`. -/
def Walk (f : CachingFileSystem T σ) (root : GoString) (walkFunc : T.WalkFunc) :
    error × CachingFileSystem T σ :=
  f.forward (f.fs.Walk root walkFunc)

/-- The decorator as an implementation of `boshsys.FileSystem`
(`var _ boshsys.FileSystem = &CachingFileSystem{}`): its state is the whole struct. -/
def asFileSystem : FileSystem T (CachingFileSystem T σ) where
  ChangeTempRoot := fun path f => f.ChangeTempRoot path
  HomeDir := fun username f => f.HomeDir username
  MkdirAll := fun path perm f => f.MkdirAll path perm
  RemoveAll := fun fileOrDir f => f.RemoveAll fileOrDir
  Chown := fun path username f => f.Chown path username
  Chmod := fun path perm f => f.Chmod path perm
  OpenFile := fun path flag perm f => f.OpenFile path flag perm
  WriteFileString := fun path content f => f.WriteFileString path content
  WriteFile := fun path content f => f.WriteFile path content
  ExpandPath := fun path f => f.ExpandPath path
  ConvergeFileContents := fun path content opts f => f.ConvergeFileContents path content opts
  ReadFileString := fun path f => f.ReadFileString path
  ReadFile := fun path f => f.ReadFile path
  ReadFileWithOpts := fun path opts f => f.ReadFileWithOpts path opts
  FileExists := fun path f => f.FileExists path
  Rename := fun oldPath newPath f => f.Rename oldPath newPath
  Symlink := fun oldPath newPath f => f.Symlink oldPath newPath
  ReadAndFollowLink := fun symlinkPath f => f.ReadAndFollowLink symlinkPath
  Readlink := fun symlinkPath f => f.Readlink symlinkPath
  CopyFile := fun srcPath dstPath f => f.CopyFile srcPath dstPath
  CopyDir := fun srcPath dstPath f => f.CopyDir srcPath dstPath
  TempFile := fun pfx f => f.TempFile pfx
  TempDir := fun pfx f => f.TempDir pfx
  Lstat := fun path f => f.Lstat path
  Stat := fun path f => f.Stat path
  StatWithOpts := fun path opts f => f.StatWithOpts path opts
  RecursiveGlob := fun pattern f => f.RecursiveGlob pattern
  WriteFileQuietly := fun path content f => f.WriteFileQuietly path content
  Glob := fun pattern f => f.Glob pattern
  Walk := fun root walkFunc f => f.Walk root walkFunc

end CachingFileSystem

/-! ## Observing the invocations of the underlying filesystem -/

/-- One completed invocation of a method of a filesystem: the request and what it returned. -/
structure Invocation (T : SysTypes) where
  req : Request T
  resp : Response T req

/-- Invoke a method and append the invocation to a record of invocations. -/
def recorded {T : SysTypes} {σ : Type} (fs : FileSystem T σ) (req : Request T)
    (s : σ × List (Invocation T)) : Response T req × (σ × List (Invocation T)) :=
  let r := fs.call req s.1
  (r.1, (r.2, s.2 ++ [⟨req, r.1⟩]))

/-- A filesystem that behaves as `fs` does and keeps, next to the state of `fs`, the list of
all invocations made on it, oldest first. -/
def spy {T : SysTypes} {σ : Type} (fs : FileSystem T σ) :
    FileSystem T (σ × List (Invocation T)) where
  ChangeTempRoot := fun path => recorded fs (.ChangeTempRoot path)
  HomeDir := fun username => recorded fs (.HomeDir username)
  MkdirAll := fun path perm => recorded fs (.MkdirAll path perm)
  RemoveAll := fun fileOrDir => recorded fs (.RemoveAll fileOrDir)
  Chown := fun path username => recorded fs (.Chown path username)
  Chmod := fun path perm => recorded fs (.Chmod path perm)
  OpenFile := fun path flag perm => recorded fs (.OpenFile path flag perm)
  WriteFileString := fun path content => recorded fs (.WriteFileString path content)
  WriteFile := fun path content => recorded fs (.WriteFile path content)
  ExpandPath := fun path => recorded fs (.ExpandPath path)
  ConvergeFileContents := fun path content opts =>
    recorded fs (.ConvergeFileContents path content opts)
  ReadFileString := fun path => recorded fs (.ReadFileString path)
  ReadFile := fun path => recorded fs (.ReadFile path)
  ReadFileWithOpts := fun path opts => recorded fs (.ReadFileWithOpts path opts)
  FileExists := fun path => recorded fs (.FileExists path)
  Rename := fun oldPath newPath => recorded fs (.Rename oldPath newPath)
  Symlink := fun oldPath newPath => recorded fs (.Symlink oldPath newPath)
  ReadAndFollowLink := fun symlinkPath => recorded fs (.ReadAndFollowLink symlinkPath)
  Readlink := fun symlinkPath => recorded fs (.Readlink symlinkPath)
  CopyFile := fun srcPath dstPath => recorded fs (.CopyFile srcPath dstPath)
  CopyDir := fun srcPath dstPath => recorded fs (.CopyDir srcPath dstPath)
  TempFile := fun pfx => recorded fs (.TempFile pfx)
  TempDir := fun pfx => recorded fs (.TempDir pfx)
  Lstat := fun path => recorded fs (.Lstat path)
  Stat := fun path => recorded fs (.Stat path)
  StatWithOpts := fun path opts => recorded fs (.StatWithOpts path opts)
  RecursiveGlob := fun pattern => recorded fs (.RecursiveGlob pattern)
  WriteFileQuietly := fun path content => recorded fs (.WriteFileQuietly path content)
  Glob := fun pattern => recorded fs (.Glob pattern)
  Walk := fun root walkFunc => recorded fs (.Walk root walkFunc)

/-! ## Sequences of operations -/

/-- One thing that happens to a decorator: a call of one of its `boshsys.FileSystem` methods,
a call of `DropCache`, or a change of the underlying filesystem made behind its back. -/
inductive Op (T : SysTypes) (σ : Type)
  | call (req : Request T)
  | DropCache
  | outOfBand (g : σ → σ)

/-- Whether an operation is `DropCache`. -/
def Op.isDropCache {T : SysTypes} {σ : Type} : Op T σ → Bool
  | .DropCache => true
  | _ => false

/-- The decorator after one operation (what the operation returned is dropped). -/
def step {T : SysTypes} {σ : Type} (f : CachingFileSystem T σ) : Op T σ → CachingFileSystem T σ
  | .call req => (CachingFileSystem.asFileSystem.call req f).2
  | .DropCache => f.DropCache
  | .outOfBand g => { f with fsState := g f.fsState }

/-- The decorator after a sequence of operations, first to last. -/
def run {T : SysTypes} {σ : Type} (f : CachingFileSystem T σ) (ops : List (Op T σ)) :
    CachingFileSystem T σ :=
  ops.foldl step f

/-- The cached methods of the decorator; every other method is a passthrough. -/
def Request.isCached {T : SysTypes} : Request T → Bool
  | .ReadFile _ => true
  | .ReadFileString _ => true
  | .Glob _ => true
  | _ => false

/-- The record of invocations kept by the spy under a decorator. -/
def invocations {T : SysTypes} {σ : Type} (F : CachingFileSystem T (σ × List (Invocation T))) :
    List (Invocation T) :=
  F.fsState.2

/-- Number of recorded invocations of `ReadFile` with the given path. -/
def countReadFile {T : SysTypes} (path : GoString) (log : List (Invocation T)) : Nat :=
  (log.filter fun i =>
    match i.req with
    | .ReadFile q => decide (q = path)
    | _ => false).length

/-- Number of recorded invocations of `Glob` with the given pattern. -/
def countGlob {T : SysTypes} (pattern : GoString) (log : List (Invocation T)) : Nat :=
  (log.filter fun i =>
    match i.req with
    | .Glob q => decide (q = pattern)
    | _ => false).length

/-! ## A small in-memory filesystem, used to exercise the decorator on concrete inputs -/

/-- All external types taken to be `Unit`. -/
def unitTypes : SysTypes :=
  { FileMode := Unit
    File := Unit
    FileInfo := Unit
    ReadOpts := Unit
    StatOpts := Unit
    ConvergeFileContentsOpts := Unit
    WalkFunc := Unit }

/-- State of the in-memory filesystem: file contents by path, and expansions by pattern. -/
structure MemState where
  files : GoMap Bytes
  globs : GoMap (List GoString)

/-- The error of the in-memory filesystem for a missing file. -/
def errNotExist : ErrorValue := ⟨"no such file or directory"⟩

/-- The error of the in-memory filesystem for a pattern it cannot expand. -/
def errBadPattern : ErrorValue := ⟨"bad pattern"⟩

/-- An in-memory filesystem: reads look a path up, writes store, globs look a pattern up;
the remaining methods do nothing and succeed. -/
def memFS : FileSystem unitTypes MemState where
  ChangeTempRoot := fun _ s => (none, s)
  HomeDir := fun _ s => ((GoString.empty, none), s)
  MkdirAll := fun _ _ s => (none, s)
  RemoveAll := fun fileOrDir s =>
    (none, { s with files := fun k => if k = fileOrDir then none else s.files k })
  Chown := fun _ _ s => (none, s)
  Chmod := fun _ _ s => (none, s)
  OpenFile := fun _ _ _ s => (((), none), s)
  WriteFileString := fun path content s =>
    (none, { s with files := s.files.set path content.bytes })
  WriteFile := fun path content s => (none, { s with files := s.files.set path content })
  ExpandPath := fun path s => ((path, none), s)
  ConvergeFileContents := fun path content _ s =>
    ((true, none), { s with files := s.files.set path content })
  ReadFileString := fun path s =>
    match s.files path with
    | some c => ((GoString.ofBytes c, none), s)
    | none => ((GoString.empty, some errNotExist), s)
  ReadFile := fun path s =>
    match s.files path with
    | some c => ((c, none), s)
    | none => (([], some errNotExist), s)
  ReadFileWithOpts := fun path _ s =>
    match s.files path with
    | some c => ((c, none), s)
    | none => (([], some errNotExist), s)
  FileExists := fun path s => ((s.files path).isSome, s)
  Rename := fun _ _ s => (none, s)
  Symlink := fun _ _ s => (none, s)
  ReadAndFollowLink := fun symlinkPath s => ((symlinkPath, none), s)
  Readlink := fun symlinkPath s => ((symlinkPath, none), s)
  CopyFile := fun _ _ s => (none, s)
  CopyDir := fun _ _ s => (none, s)
  TempFile := fun _ s => (((), none), s)
  TempDir := fun pfx s => ((pfx, none), s)
  Lstat := fun _ s => (((), none), s)
  Stat := fun _ s => (((), none), s)
  StatWithOpts := fun _ _ s => (((), none), s)
  RecursiveGlob := fun pattern s =>
    match s.globs pattern with
    | some l => ((l, none), s)
    | none => (([], some errBadPattern), s)
  WriteFileQuietly := fun path content s => (none, { s with files := s.files.set path content })
  Glob := fun pattern s =>
    match s.globs pattern with
    | some l => ((l, none), s)
    | none => (([], some errBadPattern), s)
  Walk := fun _ _ s => (none, s)

/-- The path `/a`. -/
def pathA : GoString := ⟨[47, 97]⟩

/-- The path `/b`. -/
def pathB : GoString := ⟨[47, 98]⟩

/-- The bytes of `hello`. -/
def hello : Bytes := [104, 101, 108, 108, 111]

/-- The bytes of `world`. -/
def world : Bytes := [119, 111, 114, 108, 100]

/-- The pattern `*.yml`. -/
def patYml : GoString := ⟨[42, 46, 121, 109, 108]⟩

/-- The list `a.yml`, `b.yml`. -/
def ymlFiles : List GoString := [⟨[97, 46, 121, 109, 108]⟩, ⟨[98, 46, 121, 109, 108]⟩]

/-- In-memory state holding `/a` with content `hello` and the expansion of `*.yml`. -/
def memHello : MemState :=
  { files := GoMap.empty.set pathA hello
    globs := GoMap.empty.set patYml ymlFiles }

/-- In-memory state holding `/a` with content `world`, and no expansions. -/
def memWorld : MemState :=
  { files := GoMap.empty.set pathA world
    globs := GoMap.empty }

/-- A fresh decorator over the spy on the in-memory filesystem in state `memHello`. -/
def freshHello : CachingFileSystem unitTypes (MemState × List (Invocation unitTypes)) :=
  NewCachingFileSystem (spy memFS) (memHello, []) []

/-! ## Basic facts -/

section Facts

variable {T : SysTypes} {σ : Type}

theorem GoMap.set_same {V : Type} (m : GoMap V) (k : GoString) (v : V) :
    m.set k v k = some v := by
  simp [GoMap.set]

theorem GoMap.set_other {V : Type} (m : GoMap V) (k k2 : GoString) (v : V) (h : k2 ≠ k) :
    m.set k v k2 = m k2 := by
  simp [GoMap.set, h]

theorem ReadFile_hit (f : CachingFileSystem T σ) (p : GoString) (c : Bytes)
    (h : f.readCache p = some c) :
    f.ReadFile p
      = ((c, none), { f with logger := f.logger.Debug f.logTag "hit: read[%s]" [p] }) := by
  simp [CachingFileSystem.ReadFile, h]

theorem ReadFile_miss_ok (f : CachingFileSystem T σ) (p : GoString) (c : Bytes)
    (h : f.readCache p = none) (hok : (f.fs.ReadFile p f.fsState).1 = (c, none)) :
    f.ReadFile p
      = ((c, none),
         { f with logger := f.logger.Debug f.logTag "miss: read[%s]" [p]
                  fsState := (f.fs.ReadFile p f.fsState).2
                  readCache := f.readCache.set p c }) := by
  have h1 : (f.fs.ReadFile p f.fsState).1.1 = c := by rw [hok]
  have h2 : (f.fs.ReadFile p f.fsState).1.2 = none := by rw [hok]
  simp [CachingFileSystem.ReadFile, h, h1, h2]

theorem ReadFile_miss_err (f : CachingFileSystem T σ) (p : GoString) (c : Bytes)
    (e : ErrorValue) (h : f.readCache p = none)
    (herr : (f.fs.ReadFile p f.fsState).1 = (c, some e)) :
    f.ReadFile p
      = ((c, some e),
         { f with logger := f.logger.Debug f.logTag "miss: read[%s]" [p]
                  fsState := (f.fs.ReadFile p f.fsState).2 }) := by
  have h1 : (f.fs.ReadFile p f.fsState).1.1 = c := by rw [herr]
  have h2 : (f.fs.ReadFile p f.fsState).1.2 = some e := by rw [herr]
  simp [CachingFileSystem.ReadFile, h, h1, h2]

theorem ReadFile_cases (f : CachingFileSystem T σ) (p : GoString) :
    (∃ c, f.readCache p = some c ∧
      f.ReadFile p
        = ((c, none), { f with logger := f.logger.Debug f.logTag "hit: read[%s]" [p] })) ∨
    (∃ c, f.readCache p = none ∧ (f.fs.ReadFile p f.fsState).1 = (c, none) ∧
      f.ReadFile p
        = ((c, none),
           { f with logger := f.logger.Debug f.logTag "miss: read[%s]" [p]
                    fsState := (f.fs.ReadFile p f.fsState).2
                    readCache := f.readCache.set p c })) ∨
    (∃ c e, f.readCache p = none ∧ (f.fs.ReadFile p f.fsState).1 = (c, some e) ∧
      f.ReadFile p
        = ((c, some e),
           { f with logger := f.logger.Debug f.logTag "miss: read[%s]" [p]
                    fsState := (f.fs.ReadFile p f.fsState).2 })) := by
  cases h : f.readCache p with
  | some c => exact Or.inl ⟨c, rfl, ReadFile_hit f p c h⟩
  | none =>
    rcases hr : (f.fs.ReadFile p f.fsState).1 with ⟨c, err⟩
    cases err with
    | none => exact Or.inr (Or.inl ⟨c, rfl, rfl, ReadFile_miss_ok f p c h hr⟩)
    | some e => exact Or.inr (Or.inr ⟨c, e, rfl, rfl, ReadFile_miss_err f p c e h hr⟩)

theorem Glob_hit (f : CachingFileSystem T σ) (g : GoString) (l : List GoString)
    (h : f.globCache g = some l) :
    f.Glob g
      = ((l, none), { f with logger := f.logger.Debug f.logTag "hit: glob[%s]" [g] }) := by
  simp [CachingFileSystem.Glob, h]

theorem Glob_miss_ok (f : CachingFileSystem T σ) (g : GoString) (l : List GoString)
    (h : f.globCache g = none) (hok : (f.fs.Glob g f.fsState).1 = (l, none)) :
    f.Glob g
      = ((l, none),
         { f with logger := f.logger.Debug f.logTag "miss: glob[%s]" [g]
                  fsState := (f.fs.Glob g f.fsState).2
                  globCache := f.globCache.set g l }) := by
  have h1 : (f.fs.Glob g f.fsState).1.1 = l := by rw [hok]
  have h2 : (f.fs.Glob g f.fsState).1.2 = none := by rw [hok]
  simp [CachingFileSystem.Glob, h, h1, h2]

theorem Glob_miss_err (f : CachingFileSystem T σ) (g : GoString) (l : List GoString)
    (e : ErrorValue) (h : f.globCache g = none)
    (herr : (f.fs.Glob g f.fsState).1 = (l, some e)) :
    f.Glob g
      = ((l, some e),
         { f with logger := f.logger.Debug f.logTag "miss: glob[%s]" [g]
                  fsState := (f.fs.Glob g f.fsState).2 }) := by
  have h1 : (f.fs.Glob g f.fsState).1.1 = l := by rw [herr]
  have h2 : (f.fs.Glob g f.fsState).1.2 = some e := by rw [herr]
  simp [CachingFileSystem.Glob, h, h1, h2]

theorem Glob_cases (f : CachingFileSystem T σ) (g : GoString) :
    (∃ l, f.globCache g = some l ∧
      f.Glob g
        = ((l, none), { f with logger := f.logger.Debug f.logTag "hit: glob[%s]" [g] })) ∨
    (∃ l, f.globCache g = none ∧ (f.fs.Glob g f.fsState).1 = (l, none) ∧
      f.Glob g
        = ((l, none),
           { f with logger := f.logger.Debug f.logTag "miss: glob[%s]" [g]
                    fsState := (f.fs.Glob g f.fsState).2
                    globCache := f.globCache.set g l })) ∨
    (∃ l e, f.globCache g = none ∧ (f.fs.Glob g f.fsState).1 = (l, some e) ∧
      f.Glob g
        = ((l, some e),
           { f with logger := f.logger.Debug f.logTag "miss: glob[%s]" [g]
                    fsState := (f.fs.Glob g f.fsState).2 })) := by
  cases h : f.globCache g with
  | some l => exact Or.inl ⟨l, rfl, Glob_hit f g l h⟩
  | none =>
    rcases hr : (f.fs.Glob g f.fsState).1 with ⟨l, err⟩
    cases err with
    | none => exact Or.inr (Or.inl ⟨l, rfl, rfl, Glob_miss_ok f g l h hr⟩)
    | some e => exact Or.inr (Or.inr ⟨l, e, rfl, rfl, Glob_miss_err f g l e h hr⟩)

theorem ReadFileString_eq (f : CachingFileSystem T σ) (p : GoString) :
    f.ReadFileString p
      = (match (f.ReadFile p).1.2 with
         | some e => ((GoString.empty, some e), (f.ReadFile p).2)
         | none => ((GoString.ofBytes (f.ReadFile p).1.1, none), (f.ReadFile p).2)) := by
  rfl

theorem ReadFileString_state (f : CachingFileSystem T σ) (p : GoString) :
    (f.ReadFileString p).2 = (f.ReadFile p).2 := by
  rw [ReadFileString_eq]
  cases (f.ReadFile p).1.2 <;> rfl

/-! ### Footprint of single calls -/

theorem ReadFile_fs (f : CachingFileSystem T σ) (p : GoString) :
    (f.ReadFile p).2.fs = f.fs := by
  rcases ReadFile_cases f p with ⟨c, _, h⟩ | ⟨c, _, _, h⟩ | ⟨c, e, _, _, h⟩ <;> rw [h]

theorem ReadFile_globCache (f : CachingFileSystem T σ) (p : GoString) :
    (f.ReadFile p).2.globCache = f.globCache := by
  rcases ReadFile_cases f p with ⟨c, _, h⟩ | ⟨c, _, _, h⟩ | ⟨c, e, _, _, h⟩ <;> rw [h]

theorem ReadFile_readCache_other (f : CachingFileSystem T σ) (p k : GoString) (hk : k ≠ p) :
    (f.ReadFile p).2.readCache k = f.readCache k := by
  rcases ReadFile_cases f p with ⟨c, _, h⟩ | ⟨c, _, _, h⟩ | ⟨c, e, _, _, h⟩ <;> rw [h]
  exact GoMap.set_other _ _ _ _ hk

theorem ReadFile_readCache_mono (f : CachingFileSystem T σ) (p k : GoString) (v : Bytes)
    (hv : f.readCache k = some v) : (f.ReadFile p).2.readCache k = some v := by
  by_cases hk : k = p
  · subst hk
    rw [ReadFile_hit f k v hv]
    exact hv
  · rw [ReadFile_readCache_other f p k hk]
    exact hv

theorem Glob_fs (f : CachingFileSystem T σ) (g : GoString) : (f.Glob g).2.fs = f.fs := by
  rcases Glob_cases f g with ⟨l, _, h⟩ | ⟨l, _, _, h⟩ | ⟨l, e, _, _, h⟩ <;> rw [h]

theorem Glob_readCache (f : CachingFileSystem T σ) (g : GoString) :
    (f.Glob g).2.readCache = f.readCache := by
  rcases Glob_cases f g with ⟨l, _, h⟩ | ⟨l, _, _, h⟩ | ⟨l, e, _, _, h⟩ <;> rw [h]

theorem Glob_globCache_other (f : CachingFileSystem T σ) (g k : GoString) (hk : k ≠ g) :
    (f.Glob g).2.globCache k = f.globCache k := by
  rcases Glob_cases f g with ⟨l, _, h⟩ | ⟨l, _, _, h⟩ | ⟨l, e, _, _, h⟩ <;> rw [h]
  exact GoMap.set_other _ _ _ _ hk

theorem Glob_globCache_mono (f : CachingFileSystem T σ) (g k : GoString) (v : List GoString)
    (hv : f.globCache k = some v) : (f.Glob g).2.globCache k = some v := by
  by_cases hk : k = g
  · subst hk
    rw [Glob_hit f k v hv]
    exact hv
  · rw [Glob_globCache_other f g k hk]
    exact hv

/-! ### Calls through the interface -/

theorem call_passthrough (f : CachingFileSystem T σ) (req : Request T)
    (h : req.isCached = false) :
    CachingFileSystem.asFileSystem.call req f = f.forward (f.fs.call req) := by
  cases req <;> first | rfl | exact Bool.noConfusion h

theorem call_ReadFile (f : CachingFileSystem T σ) (p : GoString) :
    CachingFileSystem.asFileSystem.call (.ReadFile p) f = f.ReadFile p := rfl

theorem call_ReadFileString (f : CachingFileSystem T σ) (p : GoString) :
    CachingFileSystem.asFileSystem.call (.ReadFileString p) f = f.ReadFileString p := rfl

theorem call_Glob (f : CachingFileSystem T σ) (g : GoString) :
    CachingFileSystem.asFileSystem.call (.Glob g) f = f.Glob g := rfl

theorem call_fs (f : CachingFileSystem T σ) (req : Request T) :
    (CachingFileSystem.asFileSystem.call req f).2.fs = f.fs := by
  cases req
  case ReadFileString q => rw [call_ReadFileString, ReadFileString_state]; exact ReadFile_fs f q
  case ReadFile q => exact ReadFile_fs f q
  case Glob q => exact Glob_fs f q
  all_goals rfl

theorem call_readCache_mono (f : CachingFileSystem T σ) (req : Request T) (k : GoString)
    (v : Bytes) (hv : f.readCache k = some v) :
    (CachingFileSystem.asFileSystem.call req f).2.readCache k = some v := by
  cases req
  case ReadFileString q =>
    rw [call_ReadFileString, ReadFileString_state]; exact ReadFile_readCache_mono f q k v hv
  case ReadFile q => exact ReadFile_readCache_mono f q k v hv
  case Glob q => rw [call_Glob, Glob_readCache]; exact hv
  all_goals exact hv

theorem call_globCache_mono (f : CachingFileSystem T σ) (req : Request T) (k : GoString)
    (v : List GoString) (hv : f.globCache k = some v) :
    (CachingFileSystem.asFileSystem.call req f).2.globCache k = some v := by
  cases req
  case ReadFileString q =>
    rw [call_ReadFileString, ReadFileString_state, ReadFile_globCache]; exact hv
  case ReadFile q => rw [call_ReadFile, ReadFile_globCache]; exact hv
  case Glob q => exact Glob_globCache_mono f q k v hv
  all_goals exact hv

/-- A call that is not a read of `p` leaves the content cache at `p` as it was. -/
theorem call_readCache_at (f : CachingFileSystem T σ) (req : Request T) (p : GoString)
    (h1 : req ≠ .ReadFile p) (h2 : req ≠ .ReadFileString p) :
    (CachingFileSystem.asFileSystem.call req f).2.readCache p = f.readCache p := by
  cases req
  case ReadFileString q =>
    rw [call_ReadFileString, ReadFileString_state]
    exact ReadFile_readCache_other f q p (fun hpq => h2 (by rw [hpq]))
  case ReadFile q =>
    exact ReadFile_readCache_other f q p (fun hpq => h1 (by rw [hpq]))
  case Glob q => rw [call_Glob, Glob_readCache]
  all_goals rfl

/-- A call that is not `Glob(g)` leaves the glob cache at `g` as it was. -/
theorem call_globCache_at (f : CachingFileSystem T σ) (req : Request T) (g : GoString)
    (h1 : req ≠ .Glob g) :
    (CachingFileSystem.asFileSystem.call req f).2.globCache g = f.globCache g := by
  cases req
  case ReadFileString q => rw [call_ReadFileString, ReadFileString_state, ReadFile_globCache]
  case ReadFile q => rw [call_ReadFile, ReadFile_globCache]
  case Glob q => exact Glob_globCache_other f q g (fun hgq => h1 (by rw [hgq]))
  all_goals rfl

/-! ### Sequences -/

theorem run_nil (f : CachingFileSystem T σ) : run f [] = f := rfl

theorem run_cons (f : CachingFileSystem T σ) (op : Op T σ) (ops : List (Op T σ)) :
    run f (op :: ops) = run (step f op) ops := rfl

theorem run_append (f : CachingFileSystem T σ) (xs ys : List (Op T σ)) :
    run f (xs ++ ys) = run (run f xs) ys := by
  simp [run, List.foldl_append]

theorem step_fs (f : CachingFileSystem T σ) (op : Op T σ) : (step f op).fs = f.fs := by
  cases op with
  | call req => exact call_fs f req
  | DropCache => rfl
  | outOfBand g => rfl

theorem run_fs (f : CachingFileSystem T σ) (ops : List (Op T σ)) : (run f ops).fs = f.fs := by
  induction ops generalizing f with
  | nil => rfl
  | cons op ops ih => rw [run_cons, ih, step_fs]

theorem step_readCache_mono (f : CachingFileSystem T σ) (op : Op T σ)
    (hop : op.isDropCache = false) (k : GoString) (v : Bytes) (hv : f.readCache k = some v) :
    (step f op).readCache k = some v := by
  cases op with
  | call req => exact call_readCache_mono f req k v hv
  | DropCache => exact Bool.noConfusion hop
  | outOfBand g => exact hv

theorem step_globCache_mono (f : CachingFileSystem T σ) (op : Op T σ)
    (hop : op.isDropCache = false) (k : GoString) (v : List GoString)
    (hv : f.globCache k = some v) : (step f op).globCache k = some v := by
  cases op with
  | call req => exact call_globCache_mono f req k v hv
  | DropCache => exact Bool.noConfusion hop
  | outOfBand g => exact hv

theorem run_readCache_mono (f : CachingFileSystem T σ) (ops : List (Op T σ))
    (hops : ∀ op ∈ ops, op.isDropCache = false) (k : GoString) (v : Bytes)
    (hv : f.readCache k = some v) : (run f ops).readCache k = some v := by
  induction ops generalizing f with
  | nil => exact hv
  | cons op ops ih =>
    rw [run_cons]
    exact ih (step f op) (fun o ho => hops o (List.mem_cons_of_mem _ ho))
      (step_readCache_mono f op (hops op (List.mem_cons_self _ _)) k v hv)

theorem run_globCache_mono (f : CachingFileSystem T σ) (ops : List (Op T σ))
    (hops : ∀ op ∈ ops, op.isDropCache = false) (k : GoString) (v : List GoString)
    (hv : f.globCache k = some v) : (run f ops).globCache k = some v := by
  induction ops generalizing f with
  | nil => exact hv
  | cons op ops ih =>
    rw [run_cons]
    exact ih (step f op) (fun o ho => hops o (List.mem_cons_of_mem _ ho))
      (step_globCache_mono f op (hops op (List.mem_cons_self _ _)) k v hv)

/-- Operations that are no read of `p` keep an absent content entry for `p` absent. -/
theorem run_readCache_none (f : CachingFileSystem T σ) (ops : List (Op T σ)) (p : GoString)
    (hops : ∀ op ∈ ops, op ≠ .call (.ReadFile p) ∧ op ≠ .call (.ReadFileString p))
    (hp : f.readCache p = none) : (run f ops).readCache p = none := by
  induction ops generalizing f with
  | nil => exact hp
  | cons op ops ih =>
    rw [run_cons]
    refine ih (step f op) (fun o ho => hops o (List.mem_cons_of_mem _ ho)) ?_
    have h := hops op (List.mem_cons_self _ _)
    cases op with
    | call req =>
      show (CachingFileSystem.asFileSystem.call req f).2.readCache p = none
      rw [call_readCache_at f req p (fun hr => h.1 (by rw [hr])) (fun hr => h.2 (by rw [hr]))]
      exact hp
    | DropCache => rfl
    | outOfBand g => exact hp

/-- Operations other than `Glob(g)` keep an absent glob entry for `g` absent. -/
theorem run_globCache_none (f : CachingFileSystem T σ) (ops : List (Op T σ)) (g : GoString)
    (hops : ∀ op ∈ ops, op ≠ .call (.Glob g))
    (hg : f.globCache g = none) : (run f ops).globCache g = none := by
  induction ops generalizing f with
  | nil => exact hg
  | cons op ops ih =>
    rw [run_cons]
    refine ih (step f op) (fun o ho => hops o (List.mem_cons_of_mem _ ho)) ?_
    have h := hops op (List.mem_cons_self _ _)
    cases op with
    | call req =>
      show (CachingFileSystem.asFileSystem.call req f).2.globCache g = none
      rw [call_globCache_at f req g (fun hr => h (by rw [hr]))]
      exact hg
    | DropCache => rfl
    | outOfBand k => exact hg

/-! ### The spy -/

theorem spy_call (fs0 : FileSystem T σ) (req : Request T) (s : σ × List (Invocation T)) :
    (spy fs0).call req s = recorded fs0 req s := by
  cases req <;> rfl

theorem spy_ReadFile (fs0 : FileSystem T σ) (p : GoString) (s : σ × List (Invocation T)) :
    (spy fs0).ReadFile p s
      = ((fs0.ReadFile p s.1).1,
         ((fs0.ReadFile p s.1).2, s.2 ++ [⟨.ReadFile p, (fs0.ReadFile p s.1).1⟩])) := rfl

theorem spy_Glob (fs0 : FileSystem T σ) (g : GoString) (s : σ × List (Invocation T)) :
    (spy fs0).Glob g s
      = ((fs0.Glob g s.1).1,
         ((fs0.Glob g s.1).2, s.2 ++ [⟨.Glob g, (fs0.Glob g s.1).1⟩])) := rfl

/-- A read with no content entry invokes the underlying `ReadFile` once and returns what it
returned. -/
theorem ReadFile_miss_invokes (fs0 : FileSystem T σ)
    (G : CachingFileSystem T (σ × List (Invocation T))) (p : GoString)
    (hfs : G.fs = spy fs0) (hnone : G.readCache p = none) :
    (G.ReadFile p).1 = (fs0.ReadFile p G.fsState.1).1 ∧
    (G.ReadFile p).2.fsState
      = ((fs0.ReadFile p G.fsState.1).2,
         G.fsState.2 ++ [⟨.ReadFile p, (fs0.ReadFile p G.fsState.1).1⟩]) := by
  have hG : (G.fs.ReadFile p G.fsState)
      = ((fs0.ReadFile p G.fsState.1).1,
         ((fs0.ReadFile p G.fsState.1).2,
           G.fsState.2 ++ [⟨.ReadFile p, (fs0.ReadFile p G.fsState.1).1⟩])) := by
    rw [hfs, spy_ReadFile]
  rcases ReadFile_cases G p with ⟨c2, h1, _⟩ | ⟨c2, _, h2, h3⟩ | ⟨c2, e2, _, h2, h3⟩
  · rw [hnone] at h1; exact Option.noConfusion h1
  · rw [h3]
    rw [hG] at h2
    refine ⟨h2.symm, ?_⟩
    show (G.fs.ReadFile p G.fsState).2 = _
    rw [hG]
  · rw [h3]
    rw [hG] at h2
    refine ⟨h2.symm, ?_⟩
    show (G.fs.ReadFile p G.fsState).2 = _
    rw [hG]

/-- A glob with no glob entry invokes the underlying `Glob` once and returns what it
returned. -/
theorem Glob_miss_invokes (fs0 : FileSystem T σ)
    (G : CachingFileSystem T (σ × List (Invocation T))) (g : GoString)
    (hfs : G.fs = spy fs0) (hnone : G.globCache g = none) :
    (G.Glob g).1 = (fs0.Glob g G.fsState.1).1 ∧
    (G.Glob g).2.fsState
      = ((fs0.Glob g G.fsState.1).2,
         G.fsState.2 ++ [⟨.Glob g, (fs0.Glob g G.fsState.1).1⟩]) := by
  have hG : (G.fs.Glob g G.fsState)
      = ((fs0.Glob g G.fsState.1).1,
         ((fs0.Glob g G.fsState.1).2,
           G.fsState.2 ++ [⟨.Glob g, (fs0.Glob g G.fsState.1).1⟩])) := by
    rw [hfs, spy_Glob]
  rcases Glob_cases G g with ⟨c2, h1, _⟩ | ⟨c2, _, h2, h3⟩ | ⟨c2, e2, _, h2, h3⟩
  · rw [hnone] at h1; exact Option.noConfusion h1
  · rw [h3]
    rw [hG] at h2
    refine ⟨h2.symm, ?_⟩
    show (G.fs.Glob g G.fsState).2 = _
    rw [hG]
  · rw [h3]
    rw [hG] at h2
    refine ⟨h2.symm, ?_⟩
    show (G.fs.Glob g G.fsState).2 = _
    rw [hG]

/-- A successful read leaves its content under the path read. -/
theorem ReadFile_ok_cached (f : CachingFileSystem T σ) (p : GoString) (b : Bytes)
    (h : (f.ReadFile p).1 = (b, none)) : (f.ReadFile p).2.readCache p = some b := by
  rcases ReadFile_cases f p with ⟨c, h1, h2⟩ | ⟨c, _, _, h2⟩ | ⟨c, e, _, _, h2⟩
  · rw [h2] at h ⊢
    have hc : c = b := congrArg Prod.fst h
    rw [← hc]; exact h1
  · rw [h2] at h ⊢
    have hc : c = b := congrArg Prod.fst h
    rw [← hc]; exact GoMap.set_same _ _ _
  · rw [h2] at h
    exact Option.noConfusion (congrArg Prod.snd h)

/-- A successful glob leaves its list under the pattern expanded. -/
theorem Glob_ok_cached (f : CachingFileSystem T σ) (g : GoString) (l : List GoString)
    (h : (f.Glob g).1 = (l, none)) : (f.Glob g).2.globCache g = some l := by
  rcases Glob_cases f g with ⟨c, h1, h2⟩ | ⟨c, _, _, h2⟩ | ⟨c, e, _, _, h2⟩
  · rw [h2] at h ⊢
    have hc : c = l := congrArg Prod.fst h
    rw [← hc]; exact h1
  · rw [h2] at h ⊢
    have hc : c = l := congrArg Prod.fst h
    rw [← hc]; exact GoMap.set_same _ _ _
  · rw [h2] at h
    exact Option.noConfusion (congrArg Prod.snd h)

/-! ### Where a new entry comes from -/

theorem ReadFile_new_entry (f : CachingFileSystem T σ) (p k : GoString) (v : Bytes)
    (h : (f.ReadFile p).2.readCache k = some v) (hold : f.readCache k ≠ some v) :
    k = p ∧ f.readCache p = none ∧ (f.fs.ReadFile p f.fsState).1 = (v, none) := by
  by_cases hk : k = p
  · subst hk
    rcases ReadFile_cases f k with ⟨c, _, h2⟩ | ⟨c, h1, hr, h2⟩ | ⟨c, e, _, _, h2⟩
    · rw [h2] at h; exact absurd h hold
    · rw [h2] at h
      have hc : some c = some v := by rw [← h]; exact (GoMap.set_same _ _ _).symm
      have hcv : c = v := Option.some.inj hc
      rw [hcv] at hr
      exact ⟨rfl, h1, hr⟩
    · rw [h2] at h; exact absurd h hold
  · rw [ReadFile_readCache_other f p k hk] at h
    exact absurd h hold

theorem Glob_new_entry (f : CachingFileSystem T σ) (g k : GoString) (v : List GoString)
    (h : (f.Glob g).2.globCache k = some v) (hold : f.globCache k ≠ some v) :
    k = g ∧ f.globCache g = none ∧ (f.fs.Glob g f.fsState).1 = (v, none) := by
  by_cases hk : k = g
  · subst hk
    rcases Glob_cases f k with ⟨c, _, h2⟩ | ⟨c, h1, hr, h2⟩ | ⟨c, e, _, _, h2⟩
    · rw [h2] at h; exact absurd h hold
    · rw [h2] at h
      have hc : some c = some v := by rw [← h]; exact (GoMap.set_same _ _ _).symm
      have hcv : c = v := Option.some.inj hc
      rw [hcv] at hr
      exact ⟨rfl, h1, hr⟩
    · rw [h2] at h; exact absurd h hold
  · rw [Glob_globCache_other f g k hk] at h
    exact absurd h hold

theorem call_readCache_new (f : CachingFileSystem T σ) (req : Request T) (k : GoString)
    (v : Bytes) (h : (CachingFileSystem.asFileSystem.call req f).2.readCache k = some v)
    (hold : f.readCache k ≠ some v) :
    (req = .ReadFile k ∨ req = .ReadFileString k) ∧
    (CachingFileSystem.asFileSystem.call req f).2 = (f.ReadFile k).2 ∧
    f.readCache k = none ∧ (f.fs.ReadFile k f.fsState).1 = (v, none) := by
  cases req
  case ReadFileString q =>
    rw [call_ReadFileString, ReadFileString_state] at h
    obtain ⟨hk, h1, h2⟩ := ReadFile_new_entry f q k v h hold
    subst hk
    exact ⟨Or.inr rfl, by rw [call_ReadFileString, ReadFileString_state], h1, h2⟩
  case ReadFile q =>
    rw [call_ReadFile] at h
    obtain ⟨hk, h1, h2⟩ := ReadFile_new_entry f q k v h hold
    subst hk
    exact ⟨Or.inl rfl, rfl, h1, h2⟩
  case Glob q =>
    rw [call_Glob, Glob_readCache] at h
    exact absurd h hold
  all_goals exact absurd h hold

theorem call_globCache_new (f : CachingFileSystem T σ) (req : Request T) (k : GoString)
    (v : List GoString) (h : (CachingFileSystem.asFileSystem.call req f).2.globCache k = some v)
    (hold : f.globCache k ≠ some v) :
    req = .Glob k ∧
    f.globCache k = none ∧ (f.fs.Glob k f.fsState).1 = (v, none) := by
  cases req
  case ReadFileString q =>
    rw [call_ReadFileString, ReadFileString_state, ReadFile_globCache] at h
    exact absurd h hold
  case ReadFile q =>
    rw [call_ReadFile, ReadFile_globCache] at h
    exact absurd h hold
  case Glob q =>
    rw [call_Glob] at h
    obtain ⟨hk, h1, h2⟩ := Glob_new_entry f q k v h hold
    subst hk
    exact ⟨rfl, h1, h2⟩
  all_goals exact absurd h hold

theorem run_snoc (f : CachingFileSystem T σ) (ops : List (Op T σ)) (op : Op T σ) :
    run f (ops ++ [op]) = step (run f ops) op := by
  rw [run_append]; rfl

/-- Every content entry of a decorator that started with an empty content cache was returned,
with nil error, by an underlying `ReadFile` of its key, invoked by a read made after the last
`DropCache`. -/
theorem readCache_origin (fs0 : FileSystem T σ)
    (F0 : CachingFileSystem T (σ × List (Invocation T))) (hspy : F0.fs = spy fs0)
    (hempty : F0.readCache = GoMap.empty) (ops : List (Op T (σ × List (Invocation T))))
    (k : GoString) (v : Bytes) (h : (run F0 ops).readCache k = some v) :
    ∃ pre op post, ops = pre ++ op :: post ∧ (∀ o ∈ post, o.isDropCache = false) ∧
      (op = .call (.ReadFile k) ∨ op = .call (.ReadFileString k)) ∧
      (fs0.ReadFile k (run F0 pre).fsState.1).1 = (v, none) ∧
      invocations (step (run F0 pre) op)
        = invocations (run F0 pre) ++ [⟨.ReadFile k, (v, none)⟩] := by
  induction ops using List.reverseRecOn generalizing k v with
  | nil =>
    rw [run_nil, hempty] at h
    exact Option.noConfusion h
  | append_singleton l a ih =>
    rw [run_snoc] at h
    have extend : (run F0 l).readCache k = some v → a.isDropCache = false →
        ∃ pre op post, l ++ [a] = pre ++ op :: post ∧ (∀ o ∈ post, o.isDropCache = false) ∧
          (op = .call (.ReadFile k) ∨ op = .call (.ReadFileString k)) ∧
          (fs0.ReadFile k (run F0 pre).fsState.1).1 = (v, none) ∧
          invocations (step (run F0 pre) op)
            = invocations (run F0 pre) ++ [⟨.ReadFile k, (v, none)⟩] := by
      intro hold ha
      obtain ⟨pre, op, post, hl, hpost, hop, hres, hinv⟩ := ih k v hold
      refine ⟨pre, op, post ++ [a], by rw [hl]; simp, ?_, hop, hres, hinv⟩
      intro o ho
      rcases List.mem_append.mp ho with ho | ho
      · exact hpost o ho
      · rw [List.mem_singleton.mp ho]; exact ha
    cases a with
    | DropCache => exact Option.noConfusion h
    | outOfBand g => exact extend h rfl
    | call req =>
      by_cases hold : (run F0 l).readCache k = some v
      · exact extend hold rfl
      · obtain ⟨hreq, hst, hnone, hcall⟩ := call_readCache_new (run F0 l) req k v h hold
        have hfs : (run F0 l).fs = spy fs0 := by rw [run_fs]; exact hspy
        have hm := ReadFile_miss_invokes fs0 (run F0 l) k hfs hnone
        have hv : (fs0.ReadFile k (run F0 l).fsState.1).1 = (v, none) := by
          rw [hfs, spy_ReadFile] at hcall; exact hcall
        refine ⟨l, .call req, [], rfl, fun o ho => absurd ho (List.not_mem_nil o),
          hreq.imp (fun e => by rw [e]) (fun e => by rw [e]), hv, ?_⟩
        have hstep : step (run F0 l) (.call req) = ((run F0 l).ReadFile k).2 := hst
        rw [hstep, invocations, hm.2, hv]
        rfl

/-- Every glob entry of a decorator that started with an empty glob cache was returned, with
nil error, by an underlying `Glob` of its key, invoked by a `Glob` made after the last
`DropCache`. -/
theorem globCache_origin (fs0 : FileSystem T σ)
    (F0 : CachingFileSystem T (σ × List (Invocation T))) (hspy : F0.fs = spy fs0)
    (hempty : F0.globCache = GoMap.empty) (ops : List (Op T (σ × List (Invocation T))))
    (k : GoString) (v : List GoString) (h : (run F0 ops).globCache k = some v) :
    ∃ pre post, ops = pre ++ .call (.Glob k) :: post ∧ (∀ o ∈ post, o.isDropCache = false) ∧
      (fs0.Glob k (run F0 pre).fsState.1).1 = (v, none) ∧
      invocations (step (run F0 pre) (.call (.Glob k)))
        = invocations (run F0 pre) ++ [⟨.Glob k, (v, none)⟩] := by
  induction ops using List.reverseRecOn generalizing k v with
  | nil =>
    rw [run_nil, hempty] at h
    exact Option.noConfusion h
  | append_singleton l a ih =>
    rw [run_snoc] at h
    have extend : (run F0 l).globCache k = some v → a.isDropCache = false →
        ∃ pre post, l ++ [a] = pre ++ .call (.Glob k) :: post ∧
          (∀ o ∈ post, o.isDropCache = false) ∧
          (fs0.Glob k (run F0 pre).fsState.1).1 = (v, none) ∧
          invocations (step (run F0 pre) (.call (.Glob k)))
            = invocations (run F0 pre) ++ [⟨.Glob k, (v, none)⟩] := by
      intro hold ha
      obtain ⟨pre, post, hl, hpost, hres, hinv⟩ := ih k v hold
      refine ⟨pre, post ++ [a], by rw [hl]; simp, ?_, hres, hinv⟩
      intro o ho
      rcases List.mem_append.mp ho with ho | ho
      · exact hpost o ho
      · rw [List.mem_singleton.mp ho]; exact ha
    cases a with
    | DropCache => exact Option.noConfusion h
    | outOfBand g => exact extend h rfl
    | call req =>
      by_cases hold : (run F0 l).globCache k = some v
      · exact extend hold rfl
      · obtain ⟨hreq, hnone, hcall⟩ := call_globCache_new (run F0 l) req k v h hold
        have hfs : (run F0 l).fs = spy fs0 := by rw [run_fs]; exact hspy
        have hm := Glob_miss_invokes fs0 (run F0 l) k hfs hnone
        have hv : (fs0.Glob k (run F0 l).fsState.1).1 = (v, none) := by
          rw [hfs, spy_Glob] at hcall; exact hcall
        refine ⟨l, [], by rw [hreq], fun o ho => absurd ho (List.not_mem_nil o), hv, ?_⟩
        show invocations ((run F0 l).Glob k).2 = _
        rw [invocations, hm.2, hv]
        rfl

end Facts

/-! ## Properties of the decorator

In the statements below `F` is a decorator whose underlying filesystem is the spy on an
arbitrary filesystem `fs0`; `F.fsState.1` is the current state of `fs0` and `invocations F`
the invocations made on it so far. -/

section Claims

variable {T : SysTypes} {σ : Type}

/-- C1: when the content cache has no entry for `p` and the underlying `ReadFile(p)` succeeds
with bytes `c`, `ReadFile(p)` returns `(c, nil)`, makes exactly one underlying invocation, which
is `ReadFile(p)`, and stores `c` under `p`; after any further operations other than `DropCache`
(changes made to the underlying filesystem behind the decorator included) `ReadFile(p)` still
returns `(c, nil)` and leaves the underlying filesystem, and so the record of invocations,
untouched. -/
theorem ReadFile_miss_populates_then_hits (fs0 : FileSystem T σ)
    (F : CachingFileSystem T (σ × List (Invocation T))) (p : GoString) (c : Bytes)
    (hspy : F.fs = spy fs0) (hmiss : F.readCache p = none)
    (hok : (fs0.ReadFile p F.fsState.1).1 = (c, none)) :
    (F.ReadFile p).1 = (c, none) ∧
    invocations (F.ReadFile p).2 = invocations F ++ [⟨.ReadFile p, (c, none)⟩] ∧
    (F.ReadFile p).2.fsState.1 = (fs0.ReadFile p F.fsState.1).2 ∧
    (F.ReadFile p).2.readCache p = some c ∧
    ∀ ops : List (Op T (σ × List (Invocation T))), (∀ op ∈ ops, op.isDropCache = false) →
      ((run (F.ReadFile p).2 ops).ReadFile p).1 = (c, none) ∧
      ((run (F.ReadFile p).2 ops).ReadFile p).2.fsState = (run (F.ReadFile p).2 ops).fsState := by
  have hcall : (F.fs.ReadFile p F.fsState).1 = (c, none) := by
    rw [hspy, spy_ReadFile]; exact hok
  have hstate : (F.fs.ReadFile p F.fsState).2
      = ((fs0.ReadFile p F.fsState.1).2, F.fsState.2 ++ [⟨.ReadFile p, (c, none)⟩]) := by
    rw [hspy, spy_ReadFile, hok]
  have hrun := ReadFile_miss_ok F p c hmiss hcall
  have hcache : (F.ReadFile p).2.readCache p = some c := by
    rw [hrun]; exact GoMap.set_same _ _ _
  refine ⟨by rw [hrun], ?_, ?_, hcache, ?_⟩
  · rw [hrun]; show (F.fs.ReadFile p F.fsState).2.2 = _; rw [hstate]; rfl
  · rw [hrun]; show (F.fs.ReadFile p F.fsState).2.1 = _; rw [hstate]
  · intro ops hops
    have hlater := run_readCache_mono (F.ReadFile p).2 ops hops p c hcache
    rw [ReadFile_hit _ p c hlater]
    exact ⟨rfl, rfl⟩

/-- C1 at a concrete input: `/a` holds `hello`; the first read misses and records one
invocation; after the file is changed to `world` behind the decorator the read still returns
`hello`. -/
theorem ReadFile_miss_populates_then_hits_witness :
    freshHello.readCache pathA = none ∧
    (memFS.ReadFile pathA freshHello.fsState.1).1 = (hello, none) ∧
    (freshHello.ReadFile pathA).1 = (hello, none) ∧
    invocations (freshHello.ReadFile pathA).2 = [⟨.ReadFile pathA, (hello, none)⟩] ∧
    ((run (freshHello.ReadFile pathA).2
        [.outOfBand (fun s => (memWorld, s.2))]).ReadFile pathA).1 = (hello, none) :=
  have h := ReadFile_miss_populates_then_hits memFS freshHello pathA hello rfl rfl rfl
  ⟨rfl, rfl, h.1, h.2.1,
    (h.2.2.2.2 [.outOfBand (fun s => (memWorld, s.2))] (by simp [Op.isDropCache])).1⟩

/-- C2: when the content cache has no entry for `p` and the underlying `ReadFile(p)` fails with
error `e`, `ReadFile(p)` returns exactly the pair the underlying call returned, having invoked
it once, and leaves the content cache and the glob cache as they were; after any further
operations that are no read of `p`, the next `ReadFile(p)` invokes the underlying `ReadFile(p)`
again and returns what that invocation returns. -/
theorem ReadFile_failure_not_cached (fs0 : FileSystem T σ)
    (F : CachingFileSystem T (σ × List (Invocation T))) (p : GoString) (c : Bytes)
    (e : ErrorValue) (hspy : F.fs = spy fs0) (hmiss : F.readCache p = none)
    (herr : (fs0.ReadFile p F.fsState.1).1 = (c, some e)) :
    (F.ReadFile p).1 = (c, some e) ∧
    (F.ReadFile p).1 = (fs0.ReadFile p F.fsState.1).1 ∧
    invocations (F.ReadFile p).2 = invocations F ++ [⟨.ReadFile p, (c, some e)⟩] ∧
    (F.ReadFile p).2.fsState.1 = (fs0.ReadFile p F.fsState.1).2 ∧
    (F.ReadFile p).2.readCache = F.readCache ∧
    (F.ReadFile p).2.globCache = F.globCache ∧
    ∀ ops : List (Op T (σ × List (Invocation T))),
      (∀ op ∈ ops, op ≠ .call (.ReadFile p) ∧ op ≠ .call (.ReadFileString p)) →
      ((run (F.ReadFile p).2 ops).ReadFile p).1
        = (fs0.ReadFile p (run (F.ReadFile p).2 ops).fsState.1).1 ∧
      invocations ((run (F.ReadFile p).2 ops).ReadFile p).2
        = invocations (run (F.ReadFile p).2 ops)
            ++ [⟨.ReadFile p, (fs0.ReadFile p (run (F.ReadFile p).2 ops).fsState.1).1⟩] := by
  have hcall : (F.fs.ReadFile p F.fsState).1 = (c, some e) := by
    rw [hspy, spy_ReadFile]; exact herr
  have hstate : (F.fs.ReadFile p F.fsState).2
      = ((fs0.ReadFile p F.fsState.1).2, F.fsState.2 ++ [⟨.ReadFile p, (c, some e)⟩]) := by
    rw [hspy, spy_ReadFile, herr]
  have hrun := ReadFile_miss_err F p c e hmiss hcall
  have hcache : (F.ReadFile p).2.readCache = F.readCache := by rw [hrun]
  refine ⟨by rw [hrun], by rw [hrun, herr], ?_, ?_, hcache, ReadFile_globCache F p, ?_⟩
  · rw [hrun]; show (F.fs.ReadFile p F.fsState).2.2 = _; rw [hstate]; rfl
  · rw [hrun]; show (F.fs.ReadFile p F.fsState).2.1 = _; rw [hstate]
  · intro ops hops
    have hnone : (run (F.ReadFile p).2 ops).readCache p = none :=
      run_readCache_none _ ops p hops (by rw [hcache]; exact hmiss)
    have hfs : (run (F.ReadFile p).2 ops).fs = spy fs0 := by
      rw [run_fs, ReadFile_fs]; exact hspy
    have hm := ReadFile_miss_invokes fs0 _ p hfs hnone
    exact ⟨hm.1, by rw [invocations, hm.2]; rfl⟩

/-- C2 at a concrete input: `/b` does not exist; the read fails, nothing is cached, and a
second read, after a `DropCache` and a read of `/a`, invokes the underlying filesystem again. -/
theorem ReadFile_failure_not_cached_witness :
    freshHello.readCache pathB = none ∧
    (memFS.ReadFile pathB freshHello.fsState.1).1 = ([], some errNotExist) ∧
    (freshHello.ReadFile pathB).1 = ([], some errNotExist) ∧
    (freshHello.ReadFile pathB).2.readCache = freshHello.readCache ∧
    countReadFile pathB (invocations
      ((run (freshHello.ReadFile pathB).2
        [.DropCache, .call (.ReadFile pathA)]).ReadFile pathB).2) = 2 :=
  have h := ReadFile_failure_not_cached memFS freshHello pathB [] errNotExist rfl rfl rfl
  have h2 := (h.2.2.2.2.2.2 [.DropCache, .call (.ReadFile pathA)]
    (by simp [pathA, pathB])).2
  ⟨rfl, rfl, h.1, h.2.2.2.2.1, by rw [h2]; rfl⟩

/-- C3: `Glob` is read-through.  If the glob cache holds a list for `g`, `Glob(g)` returns
that list with nil error and changes nothing but the logger, so the underlying filesystem is
not invoked.  Otherwise it invokes the underlying `Glob(g)` exactly once, returns what that
returned, and the glob cache afterwards is the old one with the returned list stored under `g`
when the error is nil, and the old one unchanged when it is not.  A list stored this way is
returned, element for element, by every later `Glob(g)` until a `DropCache`, whatever else is
called in between. -/
theorem Glob_read_through (fs0 : FileSystem T σ)
    (F : CachingFileSystem T (σ × List (Invocation T))) (g : GoString)
    (hspy : F.fs = spy fs0) :
    (∀ l, F.globCache g = some l →
      F.Glob g
        = ((l, none), { F with logger := F.logger.Debug F.logTag "hit: glob[%s]" [g] })) ∧
    (F.globCache g = none →
      (F.Glob g).1 = (fs0.Glob g F.fsState.1).1 ∧
      invocations (F.Glob g).2
        = invocations F ++ [⟨.Glob g, (fs0.Glob g F.fsState.1).1⟩] ∧
      (F.Glob g).2.fsState.1 = (fs0.Glob g F.fsState.1).2 ∧
      (F.Glob g).2.readCache = F.readCache ∧
      ((fs0.Glob g F.fsState.1).1.2 = none →
        (F.Glob g).2.globCache = F.globCache.set g (fs0.Glob g F.fsState.1).1.1) ∧
      ((fs0.Glob g F.fsState.1).1.2 ≠ none → (F.Glob g).2.globCache = F.globCache) ∧
      ((fs0.Glob g F.fsState.1).1.2 = none →
        ∀ ops : List (Op T (σ × List (Invocation T))), (∀ op ∈ ops, op.isDropCache = false) →
          ((run (F.Glob g).2 ops).Glob g).1 = ((fs0.Glob g F.fsState.1).1.1, none) ∧
          ((run (F.Glob g).2 ops).Glob g).2.fsState = (run (F.Glob g).2 ops).fsState)) := by
  refine ⟨fun l hl => Glob_hit F g l hl, fun hnone => ?_⟩
  have hm := Glob_miss_invokes fs0 F g hspy hnone
  have hcall : (F.fs.Glob g F.fsState).1 = (fs0.Glob g F.fsState.1).1 := by
    rw [hspy, spy_Glob]
  refine ⟨hm.1, by rw [invocations, hm.2]; rfl, by rw [hm.2], Glob_readCache F g, ?_, ?_, ?_⟩
  · intro hnil
    have hpair : (F.fs.Glob g F.fsState).1 = ((fs0.Glob g F.fsState.1).1.1, none) := by
      rw [hcall, ← hnil]
    rw [Glob_miss_ok F g _ hnone hpair]
  · intro herr
    cases he : (fs0.Glob g F.fsState.1).1.2 with
    | none => exact absurd he herr
    | some e =>
      have hpair : (F.fs.Glob g F.fsState).1 = ((fs0.Glob g F.fsState.1).1.1, some e) := by
        rw [hcall, ← he]
      rw [Glob_miss_err F g _ e hnone hpair]
  · intro hnil ops hops
    have hres : (F.Glob g).1 = ((fs0.Glob g F.fsState.1).1.1, none) := by
      rw [hm.1, ← hnil]
    have hlater := run_globCache_mono (F.Glob g).2 ops hops g _ (Glob_ok_cached F g _ hres)
    rw [Glob_hit _ g _ hlater]
    exact ⟨rfl, rfl⟩

/-- C3 at a concrete input: `*.yml` expands to `a.yml`, `b.yml`; the first call misses and
records one invocation, and a second call, after a content read, returns the same list with
the record unchanged. -/
theorem Glob_read_through_witness :
    freshHello.globCache patYml = none ∧
    (freshHello.Glob patYml).1 = (ymlFiles, none) ∧
    invocations (freshHello.Glob patYml).2 = [⟨.Glob patYml, (ymlFiles, none)⟩] ∧
    ((run (freshHello.Glob patYml).2 [.call (.ReadFile pathA)]).Glob patYml).1
      = (ymlFiles, none) ∧
    ((run (freshHello.Glob patYml).2 [.call (.ReadFile pathA)]).Glob patYml).2.fsState
      = (run (freshHello.Glob patYml).2 [.call (.ReadFile pathA)]).fsState :=
  have h := (Glob_read_through memFS freshHello patYml rfl).2 rfl
  have h2 := h.2.2.2.2.2.2 rfl [.call (.ReadFile pathA)] (by simp [Op.isDropCache])
  ⟨rfl, h.1, h.2.1, h2.1, h2.2⟩

/-- C4: `DropCache` is total and has no error result; from every state it leaves both caches
empty and does not touch the underlying filesystem.  After it, and after any further operations
that are no read of `k`, `ReadFile(k)` invokes the underlying `ReadFile(k)` and returns what it
returns then; likewise `Glob(k)` after any further operations other than `Glob(k)`. -/
theorem DropCache_forces_miss (fs0 : FileSystem T σ)
    (F : CachingFileSystem T (σ × List (Invocation T))) (hspy : F.fs = spy fs0) :
    F.DropCache.readCache = GoMap.empty ∧
    F.DropCache.globCache = GoMap.empty ∧
    F.DropCache.fsState = F.fsState ∧
    (∀ (k : GoString) (ops : List (Op T (σ × List (Invocation T)))),
      (∀ op ∈ ops, op ≠ .call (.ReadFile k) ∧ op ≠ .call (.ReadFileString k)) →
      ((run F.DropCache ops).ReadFile k).1
        = (fs0.ReadFile k (run F.DropCache ops).fsState.1).1 ∧
      invocations ((run F.DropCache ops).ReadFile k).2
        = invocations (run F.DropCache ops)
            ++ [⟨.ReadFile k, (fs0.ReadFile k (run F.DropCache ops).fsState.1).1⟩]) ∧
    (∀ (k : GoString) (ops : List (Op T (σ × List (Invocation T)))),
      (∀ op ∈ ops, op ≠ .call (.Glob k)) →
      ((run F.DropCache ops).Glob k).1
        = (fs0.Glob k (run F.DropCache ops).fsState.1).1 ∧
      invocations ((run F.DropCache ops).Glob k).2
        = invocations (run F.DropCache ops)
            ++ [⟨.Glob k, (fs0.Glob k (run F.DropCache ops).fsState.1).1⟩]) := by
  refine ⟨rfl, rfl, rfl, ?_, ?_⟩
  · intro k ops hops
    have hfs : (run F.DropCache ops).fs = spy fs0 := by rw [run_fs]; exact hspy
    have hnone := run_readCache_none F.DropCache ops k hops rfl
    have hm := ReadFile_miss_invokes fs0 _ k hfs hnone
    exact ⟨hm.1, by rw [invocations, hm.2]; rfl⟩
  · intro k ops hops
    have hfs : (run F.DropCache ops).fs = spy fs0 := by rw [run_fs]; exact hspy
    have hnone := run_globCache_none F.DropCache ops k hops rfl
    have hm := Glob_miss_invokes fs0 _ k hfs hnone
    exact ⟨hm.1, by rw [invocations, hm.2]; rfl⟩

/-- C4 at the scenario of the specification: `/a` holds `hello` and is read twice (one
invocation), the file is changed to `world`, a third read still returns `hello`; after
`DropCache` the fourth read returns `world` and the number of invocations of `ReadFile` for
`/a` is 2. -/
theorem DropCache_forces_miss_witness :
    ((run freshHello [.call (.ReadFile pathA), .call (.ReadFile pathA),
        .outOfBand (fun s => (memWorld, s.2))]).ReadFile pathA).1 = (hello, none) ∧
    countReadFile pathA (invocations
      ((run freshHello [.call (.ReadFile pathA), .call (.ReadFile pathA),
        .outOfBand (fun s => (memWorld, s.2))]).ReadFile pathA).2) = 1 ∧
    (((run freshHello [.call (.ReadFile pathA), .call (.ReadFile pathA),
        .outOfBand (fun s => (memWorld, s.2)), .call (.ReadFile pathA)]).DropCache).ReadFile
          pathA).1 = (world, none) ∧
    countReadFile pathA (invocations
      (((run freshHello [.call (.ReadFile pathA), .call (.ReadFile pathA),
        .outOfBand (fun s => (memWorld, s.2)), .call (.ReadFile pathA)]).DropCache).ReadFile
          pathA).2) = 2 :=
  have h := (DropCache_forces_miss memFS
    (run freshHello [.call (.ReadFile pathA), .call (.ReadFile pathA),
      .outOfBand (fun s => (memWorld, s.2)), .call (.ReadFile pathA)]) rfl).2.2.2.1 pathA []
    (by simp)
  ⟨rfl, rfl, h.1, rfl⟩

/-- C5: in every state, a glob cache holding a list for `g` included, `RecursiveGlob(g)`
invokes the underlying `RecursiveGlob(g)` exactly once, returns exactly what it returned, and
changes nothing of the decorator but the state of the underlying filesystem; what it returns
does not depend on the glob cache. -/
theorem RecursiveGlob_never_cached (fs0 : FileSystem T σ)
    (F : CachingFileSystem T (σ × List (Invocation T))) (g : GoString)
    (hspy : F.fs = spy fs0) :
    F.RecursiveGlob g
      = ((fs0.RecursiveGlob g F.fsState.1).1,
         { F with fsState := ((fs0.RecursiveGlob g F.fsState.1).2,
                    invocations F ++ [⟨.RecursiveGlob g, (fs0.RecursiveGlob g F.fsState.1).1⟩]) }) ∧
    (F.RecursiveGlob g).2.globCache = F.globCache ∧
    ∀ gc : GoMap (List GoString),
      (({ F with globCache := gc }).RecursiveGlob g).1 = (F.RecursiveGlob g).1 := by
  have h : F.RecursiveGlob g = F.forward ((spy fs0).RecursiveGlob g) := by
    rw [← hspy]; rfl
  exact ⟨by rw [h]; rfl, rfl, fun _ => rfl⟩

/-- C5 at a concrete input: right after a successful `Glob` of `*.yml`, which cached the list,
`RecursiveGlob` of `*.yml` invokes the underlying filesystem. -/
theorem RecursiveGlob_never_cached_witness :
    (freshHello.Glob patYml).2.globCache patYml = some ymlFiles ∧
    ((freshHello.Glob patYml).2.RecursiveGlob patYml).1 = (ymlFiles, none) ∧
    invocations ((freshHello.Glob patYml).2.RecursiveGlob patYml).2
      = [⟨.Glob patYml, (ymlFiles, none)⟩, ⟨.RecursiveGlob patYml, (ymlFiles, none)⟩] :=
  have h := (RecursiveGlob_never_cached memFS (freshHello.Glob patYml).2 patYml rfl).1
  ⟨rfl, by rw [h]; rfl, by rw [h]; rfl⟩

/-- C6: for every method other than `ReadFile`, `ReadFileString` and `Glob`, with any
arguments and in any state, the decorator invokes the same method of the underlying filesystem
exactly once with the same arguments, returns what it returned, and changes nothing of itself
but the state of the underlying filesystem: both caches stay as they were, and what is
returned does not depend on them. -/
theorem passthrough_forwards (fs0 : FileSystem T σ)
    (F : CachingFileSystem T (σ × List (Invocation T))) (req : Request T)
    (hspy : F.fs = spy fs0) (hreq : req.isCached = false) :
    CachingFileSystem.asFileSystem.call req F
      = ((fs0.call req F.fsState.1).1,
         { F with fsState := ((fs0.call req F.fsState.1).2,
                    invocations F ++ [⟨req, (fs0.call req F.fsState.1).1⟩]) }) ∧
    (CachingFileSystem.asFileSystem.call req F).2.readCache = F.readCache ∧
    (CachingFileSystem.asFileSystem.call req F).2.globCache = F.globCache ∧
    ∀ (rc : GoMap Bytes) (gc : GoMap (List GoString)),
      (CachingFileSystem.asFileSystem.call req { F with readCache := rc, globCache := gc }).1
        = (CachingFileSystem.asFileSystem.call req F).1 := by
  have h : CachingFileSystem.asFileSystem.call req F = F.forward (recorded fs0 req) := by
    rw [call_passthrough F req hreq, hspy]
    exact congrArg F.forward (funext (spy_call fs0 req))
  refine ⟨by rw [h]; rfl, by rw [h]; rfl, by rw [h]; rfl, fun rc gc => ?_⟩
  rw [call_passthrough F req hreq, call_passthrough _ req hreq]
  rfl

/-- C6 at a concrete input: `/a` is cached as `hello`; `WriteFile` of `world` to `/a` reaches
the underlying filesystem and leaves the cached entry, and `ReadFileWithOpts` returns the new
content, not the cached one. -/
theorem passthrough_forwards_witness :
    (freshHello.ReadFile pathA).2.readCache pathA = some hello ∧
    (CachingFileSystem.asFileSystem.call (.WriteFile pathA world)
      (freshHello.ReadFile pathA).2).2.readCache pathA = some hello ∧
    invocations (CachingFileSystem.asFileSystem.call (.WriteFile pathA world)
      (freshHello.ReadFile pathA).2).2
      = [⟨.ReadFile pathA, (hello, none)⟩, ⟨.WriteFile pathA world, none⟩] ∧
    ((CachingFileSystem.asFileSystem.call (.WriteFile pathA world)
      (freshHello.ReadFile pathA).2).2.ReadFileWithOpts pathA ()).1 = (world, none) :=
  have h := passthrough_forwards memFS (freshHello.ReadFile pathA).2 (.WriteFile pathA world)
    rfl rfl
  ⟨rfl, by rw [h.2.1]; rfl, by rw [h.1]; rfl, rfl⟩

/-- C7: `ReadFileString(p)` leaves the decorator, the underlying filesystem and the record of
invocations exactly as `ReadFile(p)` does, so on a hit it invokes nothing and on a miss it
invokes the underlying `ReadFile(p)` once and never the underlying `ReadFileString`; it returns
`(string(b), nil)` when `ReadFile(p)` returns `(b, nil)` and the empty string with `e` when
`ReadFile(p)` returns error `e`.  After a successful `ReadFileString(p)` a `ReadFile(p)` is a
hit returning the same bytes, and after a successful `ReadFile(p)` a `ReadFileString(p)` is a
hit returning them as a string. -/
theorem ReadFileString_is_cached_read (fs0 : FileSystem T σ)
    (F : CachingFileSystem T (σ × List (Invocation T))) (p : GoString)
    (hspy : F.fs = spy fs0) :
    (F.ReadFileString p).2 = (F.ReadFile p).2 ∧
    (∀ b, (F.ReadFile p).1 = (b, none) →
      (F.ReadFileString p).1 = (GoString.ofBytes b, none)) ∧
    (∀ b e, (F.ReadFile p).1 = (b, some e) →
      (F.ReadFileString p).1 = (GoString.empty, some e)) ∧
    (∀ c, F.readCache p = some c → (F.ReadFileString p).2.fsState = F.fsState) ∧
    (F.readCache p = none →
      invocations (F.ReadFileString p).2
        = invocations F ++ [⟨.ReadFile p, (fs0.ReadFile p F.fsState.1).1⟩]) ∧
    (∀ b, (F.ReadFileString p).1 = (GoString.ofBytes b, none) →
      ((F.ReadFileString p).2.ReadFile p).1 = (b, none) ∧
      ((F.ReadFileString p).2.ReadFile p).2.fsState = (F.ReadFileString p).2.fsState) ∧
    (∀ b, (F.ReadFile p).1 = (b, none) →
      ((F.ReadFile p).2.ReadFileString p).1 = (GoString.ofBytes b, none) ∧
      ((F.ReadFile p).2.ReadFileString p).2.fsState = (F.ReadFile p).2.fsState) := by
  have hst := ReadFileString_state F p
  have hok : ∀ b, (F.ReadFile p).1 = (b, none) →
      (F.ReadFileString p).1 = (GoString.ofBytes b, none) := by
    intro b hb
    have h1 : (F.ReadFile p).1.1 = b := by rw [hb]
    have h2 : (F.ReadFile p).1.2 = none := by rw [hb]
    rw [ReadFileString_eq, h2, h1]
  have herr : ∀ b e, (F.ReadFile p).1 = (b, some e) →
      (F.ReadFileString p).1 = (GoString.empty, some e) := by
    intro b e hb
    have h2 : (F.ReadFile p).1.2 = some e := by rw [hb]
    rw [ReadFileString_eq, h2]
  have hhit : ∀ (G : CachingFileSystem T (σ × List (Invocation T))) (b : Bytes),
      G.readCache p = some b →
      (G.ReadFile p).1 = (b, none) ∧ (G.ReadFile p).2.fsState = G.fsState := by
    intro G b hb
    rw [ReadFile_hit G p b hb]
    exact ⟨rfl, rfl⟩
  refine ⟨hst, hok, herr, ?_, ?_, ?_, ?_⟩
  · intro c hc
    rw [hst]
    exact (hhit F c hc).2
  · intro hnone
    rw [hst, invocations, (ReadFile_miss_invokes fs0 F p hspy hnone).2]
    rfl
  · intro b hb
    rw [hst]
    refine hhit _ b (ReadFile_ok_cached F p b ?_)
    rcases hr : (F.ReadFile p).1 with ⟨c, err⟩
    cases err with
    | none =>
      have h1 := hok c hr
      rw [hb] at h1
      have hcb : GoString.ofBytes b = GoString.ofBytes c := congrArg Prod.fst h1
      have : b = c := congrArg GoString.bytes hcb
      rw [this]
    | some e =>
      have h1 := herr c e hr
      rw [hb] at h1
      exact Option.noConfusion (congrArg Prod.snd h1)
  · intro b hb
    have hcached := ReadFile_ok_cached F p b hb
    have h := hhit (F.ReadFile p).2 b hcached
    have h1 : ((F.ReadFile p).2.ReadFile p).1.1 = b := by rw [h.1]
    have h2 : ((F.ReadFile p).2.ReadFile p).1.2 = none := by rw [h.1]
    refine ⟨by rw [ReadFileString_eq, h2, h1], ?_⟩
    rw [ReadFileString_state]
    exact h.2

/-- C7 at a concrete input: `ReadFileString` of `/a` returns `hello` as a string and records a
single invocation, of `ReadFile`; a `ReadFile` of `/a` afterwards is a hit. -/
theorem ReadFileString_is_cached_read_witness :
    (freshHello.ReadFileString pathA).1 = (GoString.ofBytes hello, none) ∧
    invocations (freshHello.ReadFileString pathA).2 = [⟨.ReadFile pathA, (hello, none)⟩] ∧
    ((freshHello.ReadFileString pathA).2.ReadFile pathA).1 = (hello, none) ∧
    ((freshHello.ReadFileString pathA).2.ReadFile pathA).2.fsState
      = (freshHello.ReadFileString pathA).2.fsState :=
  have h := ReadFileString_is_cached_read memFS freshHello pathA rfl
  ⟨h.2.1 hello rfl, h.2.2.2.2.1 rfl, (h.2.2.2.2.2.1 hello rfl).1, (h.2.2.2.2.2.1 hello rfl).2⟩

/-- C9: `ReadFile(k)` and `ReadFileString(k)` leave the glob cache unchanged, keep every
content entry with its value, and leave the content cache unchanged at every key other than
`k`; `Glob(k)` leaves the content cache unchanged, keeps every glob entry with its value, and
leaves the glob cache unchanged at every key other than `k`.  Hence over any sequence of
operations without `DropCache` every entry of either cache stays, with its value. -/
theorem cached_calls_footprint (f : CachingFileSystem T σ) (k : GoString) :
    ((f.ReadFile k).2.globCache = f.globCache ∧
      (∀ k2 v, f.readCache k2 = some v → (f.ReadFile k).2.readCache k2 = some v) ∧
      (∀ k2, k2 ≠ k → (f.ReadFile k).2.readCache k2 = f.readCache k2)) ∧
    ((f.ReadFileString k).2.globCache = f.globCache ∧
      (∀ k2 v, f.readCache k2 = some v → (f.ReadFileString k).2.readCache k2 = some v) ∧
      (∀ k2, k2 ≠ k → (f.ReadFileString k).2.readCache k2 = f.readCache k2)) ∧
    ((f.Glob k).2.readCache = f.readCache ∧
      (∀ k2 v, f.globCache k2 = some v → (f.Glob k).2.globCache k2 = some v) ∧
      (∀ k2, k2 ≠ k → (f.Glob k).2.globCache k2 = f.globCache k2)) ∧
    (∀ ops : List (Op T σ), (∀ op ∈ ops, op.isDropCache = false) →
      (∀ k2 v, f.readCache k2 = some v → (run f ops).readCache k2 = some v) ∧
      (∀ k2 v, f.globCache k2 = some v → (run f ops).globCache k2 = some v)) := by
  refine ⟨⟨ReadFile_globCache f k, fun k2 v hv => ReadFile_readCache_mono f k k2 v hv,
      fun k2 hk => ReadFile_readCache_other f k k2 hk⟩, ?_,
    ⟨Glob_readCache f k, fun k2 v hv => Glob_globCache_mono f k k2 v hv,
      fun k2 hk => Glob_globCache_other f k k2 hk⟩, ?_⟩
  · rw [ReadFileString_state]
    exact ⟨ReadFile_globCache f k, fun k2 v hv => ReadFile_readCache_mono f k k2 v hv,
      fun k2 hk => ReadFile_readCache_other f k k2 hk⟩
  · intro ops hops
    exact ⟨fun k2 v hv => run_readCache_mono f ops hops k2 v hv,
      fun k2 v hv => run_globCache_mono f ops hops k2 v hv⟩

/-- C9 at a concrete input: with `/a` cached as `hello`, a failing read of `/b` and a `Glob`
keep the entry for `/a`, and the `Glob` leaves the content cache as it was. -/
theorem cached_calls_footprint_witness :
    (freshHello.ReadFile pathA).2.readCache pathA = some hello ∧
    ((freshHello.ReadFile pathA).2.ReadFile pathB).2.readCache pathA = some hello ∧
    ((freshHello.ReadFile pathA).2.Glob patYml).2.readCache
      = (freshHello.ReadFile pathA).2.readCache ∧
    (run (freshHello.ReadFile pathA).2
      [.call (.WriteFile pathA world), .call (.RemoveAll pathA),
        .call (.ReadFileString pathA)]).readCache pathA = some hello :=
  ⟨rfl, (cached_calls_footprint (freshHello.ReadFile pathA).2 pathB).1.2.1 pathA hello rfl,
    (cached_calls_footprint (freshHello.ReadFile pathA).2 patYml).2.2.1.1,
    ((cached_calls_footprint (freshHello.ReadFile pathA).2 pathA).2.2.2
      [.call (.WriteFile pathA world), .call (.RemoveAll pathA), .call (.ReadFileString pathA)]
      (by simp [Op.isDropCache])).1 pathA hello rfl⟩

/-- C10: start from `NewCachingFileSystem` and apply any sequence of operations (calls of any
method, `DropCache`, changes made to the underlying filesystem behind the decorator).  Every
entry `(k, v)` then in the content cache was put there by a `ReadFile(k)` or
`ReadFileString(k)` of the sequence with no `DropCache` after it, during which the underlying
`ReadFile(k)` was invoked and returned `(v, nil)`; every entry `(k, v)` in the glob cache by a
`Glob(k)` of the sequence with no `DropCache` after it, during which the underlying `Glob(k)`
was invoked and returned `(v, nil)`. -/
theorem cache_entries_from_successful_calls (fs0 : FileSystem T σ) (u0 : σ)
    (log0 : List (Invocation T)) (logger : Logger)
    (ops : List (Op T (σ × List (Invocation T)))) :
    (∀ k v, (run (NewCachingFileSystem (spy fs0) (u0, log0) logger) ops).readCache k = some v →
      ∃ pre op post, ops = pre ++ op :: post ∧ (∀ o ∈ post, o.isDropCache = false) ∧
        (op = .call (.ReadFile k) ∨ op = .call (.ReadFileString k)) ∧
        (fs0.ReadFile k
          (run (NewCachingFileSystem (spy fs0) (u0, log0) logger) pre).fsState.1).1
            = (v, none) ∧
        invocations (step (run (NewCachingFileSystem (spy fs0) (u0, log0) logger) pre) op)
          = invocations (run (NewCachingFileSystem (spy fs0) (u0, log0) logger) pre)
              ++ [⟨.ReadFile k, (v, none)⟩]) ∧
    (∀ k v, (run (NewCachingFileSystem (spy fs0) (u0, log0) logger) ops).globCache k = some v →
      ∃ pre post, ops = pre ++ .call (.Glob k) :: post ∧ (∀ o ∈ post, o.isDropCache = false) ∧
        (fs0.Glob k
          (run (NewCachingFileSystem (spy fs0) (u0, log0) logger) pre).fsState.1).1
            = (v, none) ∧
        invocations
            (step (run (NewCachingFileSystem (spy fs0) (u0, log0) logger) pre)
              (.call (.Glob k)))
          = invocations (run (NewCachingFileSystem (spy fs0) (u0, log0) logger) pre)
              ++ [⟨.Glob k, (v, none)⟩]) :=
  ⟨fun k v h => readCache_origin fs0 _ rfl rfl ops k v h,
    fun k v h => globCache_origin fs0 _ rfl rfl ops k v h⟩

/-- C10 at a concrete input: after a read of `/a`, a `DropCache`, a failing read of `/b`, a
second read of `/a` and a `Glob`, the entry of `/a` stems from a read made after the
`DropCache`. -/
theorem cache_entries_from_successful_calls_witness :
    (run freshHello [.call (.ReadFile pathA), .DropCache, .call (.ReadFile pathB),
      .call (.ReadFileString pathA), .call (.Glob patYml)]).readCache pathA = some hello ∧
    (run freshHello [.call (.ReadFile pathA), .DropCache, .call (.ReadFile pathB),
      .call (.ReadFileString pathA), .call (.Glob patYml)]).readCache pathB = none ∧
    ∃ pre op post,
      [Op.call (.ReadFile pathA), .DropCache, .call (.ReadFile pathB),
        .call (.ReadFileString pathA), .call (.Glob patYml)] = pre ++ op :: post ∧
      (∀ o ∈ post, o.isDropCache = false) ∧
      (op = .call (.ReadFile pathA) ∨ op = .call (.ReadFileString pathA)) ∧
      (memFS.ReadFile pathA (run freshHello pre).fsState.1).1 = (hello, none) ∧
      invocations (step (run freshHello pre) op)
        = invocations (run freshHello pre) ++ [⟨.ReadFile pathA, (hello, none)⟩] :=
  ⟨rfl, rfl,
    (cache_entries_from_successful_calls memFS memHello [] []
      [.call (.ReadFile pathA), .DropCache, .call (.ReadFile pathB),
        .call (.ReadFileString pathA), .call (.Glob patYml)]).1 pathA hello rfl⟩

end Claims

end Main
